import Mathlib

/-!
Shallow embedding of the request-assembly and delivery pipeline of the
financial chat application: the retrying dispatcher and prompt assembly of
src/app/api/chat/route.ts, the document capture of the client upload
component, and the send flow of the chat page.
-/

/-- Mirror of the JavaScript test `haystack.includes(needle)` used by the
retry and error-classification code. -/
def strIncludes (hay needle : String) : Bool :=
  hay.toList.tails.any (fun t => needle.toList.isPrefixOf t)

/-- A thrown JavaScript `Error`, reduced to the only field the code reads:
its `message`. -/
structure JsError where
  message : String
deriving DecidableEq, Repr

/-- Outcome of one invocation of the wrapped model call `fn`:
it either resolves with a value or rejects with an `Error`. -/
inductive Outcome where
  | ok (value : String)
  | err (e : JsError)
deriving Repr

/-- Observable result of one run of `retryWithBackoff`: the returned value or
thrown error (`Except.error none` models `throw lastError` with
`lastError = null`), the number of attempts started, and the list of backoff
sleeps performed, in order. -/
structure RWBRun where
  result : Except (Option JsError) String
  attempts : Nat
  delays : List Nat
deriving Repr

/-- The body of the `for (let attempt = 0; attempt < maxRetries; attempt++)`
loop of `retryWithBackoff` in src/app/api/chat/route.ts. `fuel` is the number
of loop iterations still allowed, i.e. `maxRetries - attempt`; the model call
is given as the function `fn` from attempt index to outcome. On a rate-limit
error (message containing "429") the loop sleeps `baseDelay * 2 ^ attempt`
and continues; any other error is rethrown at once; an exhausted loop throws
the last error observed. -/
def retryLoop (fn : Nat → Outcome) (baseDelay : Nat) :
    Nat → Nat → Option JsError → List Nat → RWBRun
  | 0, attempt, lastError, delays => ⟨Except.error lastError, attempt, delays⟩
  | fuel + 1, attempt, _lastError, delays =>
    match fn attempt with
    | Outcome.ok v => ⟨Except.ok v, attempt + 1, delays⟩
    | Outcome.err e =>
      if strIncludes e.message "429" then
        retryLoop fn baseDelay fuel (attempt + 1) (some e)
          (delays ++ [baseDelay * 2 ^ attempt])
      else ⟨Except.error (some e), attempt + 1, delays⟩

/-- `retryWithBackoff(fn, maxRetries, baseDelay)` from
src/app/api/chat/route.ts, started at attempt 0 with no recorded error and
no sleeps performed. -/
def retryWithBackoff (fn : Nat → Outcome) (maxRetries baseDelay : Nat) : RWBRun :=
  retryLoop fn baseDelay maxRetries 0 none []

/-- The exponential backoff schedule `[bd * 2 ^ start, ..., bd * 2 ^ (start + n - 1)]`. -/
def geomDelays (bd : Nat) : Nat → Nat → List Nat
  | _, 0 => []
  | start, n + 1 => bd * 2 ^ start :: geomDelays bd (start + 1) n

theorem geomDelays_length (bd : Nat) : ∀ start n, (geomDelays bd start n).length = n := by
  intro start n
  induction n generalizing start with
  | zero => rfl
  | succ m ih => simp [geomDelays, ih]

theorem geomDelays_getD (bd : Nat) :
    ∀ n start k, k < n → (geomDelays bd start n).getD k 0 = bd * 2 ^ (start + k) := by
  intro n
  induction n with
  | zero => intro start k hk; omega
  | succ m ih =>
    intro start k hk
    match k with
    | 0 => simp [geomDelays]
    | k' + 1 =>
      simp only [geomDelays, List.getD_cons_succ]
      rw [ih (start + 1) k' (by omega)]
      have hexp : start + 1 + k' = start + (k' + 1) := by omega
      rw [hexp]

theorem retryLoop_attempt_le (fn : Nat → Outcome) (bd : Nat) :
    ∀ fuel attempt le ds, attempt ≤ (retryLoop fn bd fuel attempt le ds).attempts := by
  intro fuel
  induction fuel with
  | zero => intro attempt le ds; simp [retryLoop]
  | succ f ih =>
    intro attempt le ds
    cases hfa : fn attempt with
    | ok v => simp [retryLoop, hfa]
    | err e =>
      by_cases hrl : strIncludes e.message "429" = true
      · simp only [retryLoop, hfa, hrl, if_true]
        have := ih (attempt + 1) (some e) (ds ++ [bd * 2 ^ attempt])
        omega
      · simp [retryLoop, hfa, hrl]

theorem retryLoop_attempts_le (fn : Nat → Outcome) (bd : Nat) :
    ∀ fuel attempt le ds, (retryLoop fn bd fuel attempt le ds).attempts ≤ attempt + fuel := by
  intro fuel
  induction fuel with
  | zero => intro attempt le ds; simp [retryLoop]
  | succ f ih =>
    intro attempt le ds
    cases hfa : fn attempt with
    | ok v => simp only [retryLoop, hfa]; omega
    | err e =>
      by_cases hrl : strIncludes e.message "429" = true
      · simp only [retryLoop, hfa, hrl, if_true]
        have := ih (attempt + 1) (some e) (ds ++ [bd * 2 ^ attempt])
        omega
      · rw [Bool.not_eq_true] at hrl
        simp only [retryLoop, hfa, hrl, Bool.false_eq_true, if_false]
        omega

theorem retryLoop_pos_fuel_attempts (fn : Nat → Outcome) (bd : Nat) :
    ∀ fuel attempt le ds, 0 < fuel →
      attempt + 1 ≤ (retryLoop fn bd fuel attempt le ds).attempts := by
  intro fuel attempt le ds hf
  match fuel, hf with
  | f + 1, _ =>
    cases hfa : fn attempt with
    | ok v => simp [retryLoop, hfa]
    | err e =>
      by_cases hrl : strIncludes e.message "429" = true
      · simp only [retryLoop, hfa, hrl, if_true]
        exact retryLoop_attempt_le fn bd f (attempt + 1) (some e) (ds ++ [bd * 2 ^ attempt])
      · simp [retryLoop, hfa, hrl]

theorem retryLoop_delays_shape (fn : Nat → Outcome) (bd : Nat) :
    ∀ fuel attempt le ds, ∃ n, n ≤ fuel ∧
      (retryLoop fn bd fuel attempt le ds).delays = ds ++ geomDelays bd attempt n := by
  intro fuel
  induction fuel with
  | zero =>
    intro attempt le ds
    exact ⟨0, Nat.le_refl 0, by simp [retryLoop, geomDelays]⟩
  | succ f ih =>
    intro attempt le ds
    cases hfa : fn attempt with
    | ok v => exact ⟨0, Nat.zero_le _, by simp [retryLoop, hfa, geomDelays]⟩
    | err e =>
      by_cases hrl : strIncludes e.message "429" = true
      · obtain ⟨n, hn, hds⟩ := ih (attempt + 1) (some e) (ds ++ [bd * 2 ^ attempt])
        refine ⟨n + 1, by omega, ?_⟩
        simp only [retryLoop, hfa, hrl, if_true]
        rw [hds]
        simp [geomDelays]
      · exact ⟨0, Nat.zero_le _, by simp [retryLoop, hfa, hrl, geomDelays]⟩

theorem retryLoop_retry_implies_rl (fn : Nat → Outcome) (bd : Nat) :
    ∀ fuel attempt le ds k, attempt ≤ k →
      k + 2 ≤ (retryLoop fn bd fuel attempt le ds).attempts →
      ∃ e, fn k = Outcome.err e ∧ strIncludes e.message "429" = true := by
  intro fuel
  induction fuel with
  | zero =>
    intro attempt le ds k hak h
    simp only [retryLoop] at h
    omega
  | succ f ih =>
    intro attempt le ds k hak h
    cases hfa : fn attempt with
    | ok v =>
      simp only [retryLoop, hfa] at h
      omega
    | err e =>
      by_cases hrl : strIncludes e.message "429" = true
      · rcases Nat.eq_or_lt_of_le hak with heq | hlt
        · subst heq; exact ⟨e, hfa, hrl⟩
        · simp only [retryLoop, hfa, hrl, if_true] at h
          exact ih (attempt + 1) (some e) (ds ++ [bd * 2 ^ attempt]) k hlt h
      · rw [Bool.not_eq_true] at hrl
        simp only [retryLoop, hfa, hrl, Bool.false_eq_true, if_false] at h
        omega

theorem retryLoop_rl_implies_retry (fn : Nat → Outcome) (bd : Nat) :
    ∀ fuel attempt le ds k, attempt ≤ k → k + 1 < attempt + fuel →
      (∀ j, attempt ≤ j → j ≤ k →
        ∃ e, fn j = Outcome.err e ∧ strIncludes e.message "429" = true) →
      k + 2 ≤ (retryLoop fn bd fuel attempt le ds).attempts := by
  intro fuel
  induction fuel with
  | zero => intro attempt le ds k hak hlt hall; omega
  | succ f ih =>
    intro attempt le ds k hak hlt hall
    obtain ⟨e, hfa, hrl⟩ := hall attempt (Nat.le_refl attempt) hak
    simp only [retryLoop, hfa, hrl, if_true]
    rcases Nat.eq_or_lt_of_le hak with heq | hstrict
    · subst heq
      have hf : 0 < f := by omega
      have := retryLoop_pos_fuel_attempts fn bd f (attempt + 1) (some e)
        (ds ++ [bd * 2 ^ attempt]) hf
      omega
    · exact ih (attempt + 1) (some e) (ds ++ [bd * 2 ^ attempt]) k hstrict (by omega)
        (fun j hj1 hj2 => hall j (by omega) hj2)

theorem retryLoop_all_rl_result (fn : Nat → Outcome) (bd : Nat) (e : Nat → JsError) :
    ∀ fuel attempt le ds, 0 < fuel →
      (∀ k, attempt ≤ k → k < attempt + fuel → fn k = Outcome.err (e k)) →
      (∀ k, attempt ≤ k → k < attempt + fuel → strIncludes (e k).message "429" = true) →
      (retryLoop fn bd fuel attempt le ds).result =
        Except.error (some (e (attempt + fuel - 1))) := by
  intro fuel
  induction fuel with
  | zero => intro attempt le ds hf; omega
  | succ f ih =>
    intro attempt le ds _ hall hrl
    have hfa : fn attempt = Outcome.err (e attempt) :=
      hall attempt (Nat.le_refl attempt) (by omega)
    have hr : strIncludes (e attempt).message "429" = true :=
      hrl attempt (Nat.le_refl attempt) (by omega)
    simp only [retryLoop, hfa, hr, if_true]
    cases f with
    | zero => simp [retryLoop]
    | succ f' =>
      have := ih (attempt + 1) (some (e attempt)) (ds ++ [bd * 2 ^ attempt])
        (by omega) (fun k h1 h2 => hall k (by omega) (by omega))
        (fun k h1 h2 => hrl k (by omega) (by omega))
      rw [this]
      have harith : attempt + 1 + (f' + 1) - 1 = attempt + (f' + 1 + 1) - 1 := by omega
      rw [harith]

/-- Body of an HTTP JSON response produced by the POST handler: a successful
reply, or an error object with `error` and `details` fields. -/
inductive ApiBody where
  | reply (text : String)
  | error (message details : String)
deriving DecidableEq, Repr

/-- A `Response.json(body, status)` value returned by the POST handler. -/
structure ApiResponse where
  status : Nat
  body : ApiBody
deriving DecidableEq, Repr

/-- The user-facing text of the 429 response of the POST handler. -/
def rateLimitErrorText : String :=
  "Rate limit exceeded. The Gemini API free tier has daily/hourly limits."

/-- The `details` field of the 429 response of the POST handler. -/
def rateLimitDetailsText : String :=
  "Please wait a moment and try again, or consider upgrading your API plan at https://ai.google.dev/pricing"

/-- The catch block of `POST` in src/app/api/chat/route.ts: classify the
caught error by its message and return the matching JSON error response.
`none` models a caught value that is not an `Error` instance. -/
def postCatch (e : Option JsError) : ApiResponse :=
  match e with
  | some err =>
    if strIncludes err.message "429" || strIncludes err.message "quota" ||
        strIncludes err.message "rate limit" then
      ⟨429, ApiBody.error rateLimitErrorText rateLimitDetailsText⟩
    else if strIncludes err.message "API_KEY_INVALID" ||
        strIncludes err.message "API key" then
      ⟨401, ApiBody.error "Invalid Gemini API key. Please check your API key in .env.local" err.message⟩
    else
      ⟨500, ApiBody.error "Failed to process your request. Please try again in a moment." err.message⟩
  | none =>
    ⟨500, ApiBody.error "Failed to process your request. Please try again in a moment." "Unknown error"⟩

/-- The dispatch tail of `POST` in src/app/api/chat/route.ts: run
`retryWithBackoff(fn, 2, 2000)`; a resolved value becomes a 200 JSON reply,
a thrown error is classified by the catch block. -/
def postDispatch (fn : Nat → Outcome) : ApiResponse :=
  match (retryWithBackoff fn 2 2000).result with
  | Except.ok reply => ⟨200, ApiBody.reply reply⟩
  | Except.error e => postCatch e

/-- One entry of `body.messages` in the POST request: role is "user" or
"assistant", plus the message text. -/
structure ChatMessage where
  role : String
  content : String
deriving DecidableEq, Repr

/-- One entry of the Gemini `history` array built by POST. -/
structure GeminiTurn where
  role : String
  text : String
deriving DecidableEq, Repr

/-- The `.map` step of the history projection in POST. -/
def toGeminiTurn (m : ChatMessage) : GeminiTurn :=
  ⟨if m.role = "user" then "user" else "model", m.content⟩

/-- The history projection of `POST` in src/app/api/chat/route.ts:
`body.messages.filter((msg, index) => index > 0).map(...)`, dropping the
seeded welcome message and mapping roles to "user" / "model". -/
def projectHistory (messages : List ChatMessage) : List GeminiTurn :=
  (messages.enum.filter (fun p => decide (0 < p.fst))).map (fun p => toGeminiTurn p.snd)

/-- A document as uploaded to the POST handler and as held by the client:
id, file name, byte size, reported media type, and the materialized content. -/
structure UploadedDocument where
  id : String
  name : String
  size : Nat
  type : String
  content : String
deriving DecidableEq, Repr

/-- The 34-glyph delimiter line used by the document block of POST. -/
def delimiterText : String :=
  "━━━━━━━━━━━━━━━━━━━━━━━━━━━━━━━━━━"

/-- The per-document section of the loop body in POST: delimiter line,
`📄 FILE: name` line, delimiter line, blank line, the raw content, blank line. -/
def documentSection (doc : UploadedDocument) : String :=
  delimiterText ++ "\n" ++ "📄 FILE: " ++ doc.name ++ "\n" ++
    delimiterText ++ "\n\n" ++ doc.content ++ "\n\n"

/-- Everything `POST` appends after the original user text when documents are
attached: the attached-documents header, each document section in order, a
trailing delimiter, and the instruction line repeating the user question. -/
def attachedDocumentsBlock (userMessage : String) (documents : List UploadedDocument) : String :=
  "\n\n📎 ATTACHED DOCUMENTS:\n\n" ++ String.join (documents.map documentSection) ++
    delimiterText ++ "\n\n" ++
    "Please analyze the above document(s) and answer this question:\n" ++ userMessage

/-- The `enhancedUserMessage` construction of `POST` in
src/app/api/chat/route.ts: the user text unchanged when no documents are
attached, otherwise the user text followed by the document block. -/
def enhanceUserMessage (userMessage : String) (documents : List UploadedDocument) : String :=
  if 0 < documents.length then userMessage ++ attachedDocumentsBlock userMessage documents
  else userMessage

/-- A raw file handed to the upload component. `textContent` is what
`FileReader.readAsText` would deliver (`none` when the read fails);
`base64Content` is the whole-file base64 encoding that `readAsDataURL` would
deliver. The component decides which of the two to consult. -/
structure FileInput where
  name : String
  size : Nat
  type : String
  textContent : Option String
  base64Content : String
deriving DecidableEq, Repr

/-- `readFileContent` of the upload component: it always calls
`reader.readAsText(file)`, resolving with the text decoding or rejecting
with `Failed to read file: name`. -/
def readFileContent (f : FileInput) : Except String String :=
  match f.textContent with
  | some c => Except.ok c
  | none => Except.error ("Failed to read file: " ++ f.name)

/-- One slot of the `Promise.all` array of `handleFiles`: a successful read
becomes a document record, a failed read is caught and becomes `null`.
The nondeterministic `Date.now().toString() + Math.random()` id is modeled
by the injected batch stamp `t` and the slot index. -/
def captureFile (t idx : Nat) (f : FileInput) : Option UploadedDocument :=
  match readFileContent f with
  | Except.ok content => some ⟨toString t ++ "." ++ toString idx, f.name, f.size, f.type, content⟩
  | Except.error _ => none

/-- The `newDocs` array of `handleFiles`: one `Option` slot per file, in
batch order. -/
def handleFilesNewDocs (t : Nat) (files : List FileInput) : List (Option UploadedDocument) :=
  files.enum.map (fun p => captureFile t p.fst p.snd)

/-- The `validDocs` list of `handleFiles`: the non-null slots of `newDocs`,
in order. -/
def handleFilesValidDocs (t : Nat) (files : List FileInput) : List UploadedDocument :=
  (handleFilesNewDocs t files).filterMap (fun d => d)

/-- The number of files of a batch whose read fails. -/
def failedReadCount (files : List FileInput) : Nat :=
  (files.filter (fun f => match f.textContent with | some _ => false | none => true)).length

/-- A turn of the client conversation store (the `Message` interface of the
chat page, with the `Date` timestamp omitted and the `Date.now()` id modeled
by an injected stamp). -/
structure Message where
  id : String
  content : String
  role : String
deriving DecidableEq, Repr

/-- The request body assembled by `handleSendMessage` for `fetch("/api/chat")`. -/
structure SentRequest where
  messages : List ChatMessage
  userMessage : String
  documents : List UploadedDocument
deriving DecidableEq, Repr

/-- What the `fetch("/api/chat")` call of `handleSendMessage` can come back
with: an ok response carrying an optional `reply` field, a non-ok response
carrying an optional `error` field, or a rejected promise. -/
inductive FetchOutcome where
  | ok (reply : Option String)
  | httpError (status : Nat) (errorField : Option String)
  | networkError (msg : String)
deriving DecidableEq, Repr

/-- The JavaScript `content.trim()` test: strip leading and trailing
whitespace. Embedded structurally over the character list so that it
evaluates inside the kernel. -/
def strTrim (s : String) : String :=
  String.mk (((s.toList.dropWhile Char.isWhitespace).reverse.dropWhile Char.isWhitespace).reverse)

/-- The catch block of `handleSendMessage` in the chat page: the synthetic
assistant text for a thrown error message. -/
def errorContentFor (msg : String) : String :=
  if strIncludes msg "429" || strIncludes msg "rate limit" || strIncludes msg "quota" then
    "⏳ Rate limit reached. The Gemini API has usage limits. Please wait a minute and try again, or check your API quota at https://ai.google.dev/gemini-api/docs/rate-limits"
  else if strIncludes msg "API key" || strIncludes msg "401" then
    "🔑 API key issue. Please check that your GEMINI_API_KEY is correctly set in your .env.local file."
  else "Sorry, I encountered an error: " ++ msg

/-- The error message thrown for a non-ok response:
`errorData.error || HTTP error! status: ...`. -/
def httpThrownMessage (status : Nat) (errorField : Option String) : String :=
  match errorField with
  | some s => if s = "" then "HTTP error! status: " ++ toString status else s
  | none => "HTTP error! status: " ++ toString status

/-- The displayed content of the appended user turn in `handleSendMessage`:
the typed text, plus an attachment line naming the attached documents when
there are any. -/
def displayedUserContent (content : String) (documents : List UploadedDocument) : String :=
  if 0 < documents.length then
    content ++ "\n\n📎 Attached: " ++ String.intercalate ", " (documents.map (fun d => d.name))
  else content

/-- `handleSendMessage(content, documents)` of the chat page. The store is
passed explicitly, `t` models `Date.now()`, and `outcome` models the fetch
result. Returns the updated store and the request sent, if any. A blank
(whitespace-only) content returns at once. Otherwise the displayed user turn
is appended, the request is sent with the pre-send store as history, and
exactly one assistant turn is appended: the reply on success, or the
classified synthetic error text from the catch block. -/
def handleSendMessage (store : List Message) (content : String)
    (documents : List UploadedDocument) (t : Nat) (outcome : FetchOutcome) :
    List Message × Option SentRequest :=
  if strTrim content = "" then (store, none)
  else
    let userMessage : Message := ⟨toString t, displayedUserContent content documents, "user"⟩
    let store1 := store ++ [userMessage]
    let sent : SentRequest := ⟨store.map (fun m => ⟨m.role, m.content⟩), content, documents⟩
    match outcome with
    | FetchOutcome.ok (some r) =>
      if r = "" then
        (store1 ++ [⟨toString (t + 2), errorContentFor "No reply received from API", "assistant"⟩], some sent)
      else
        (store1 ++ [⟨toString (t + 1), r, "assistant"⟩], some sent)
    | FetchOutcome.ok none =>
      (store1 ++ [⟨toString (t + 2), errorContentFor "No reply received from API", "assistant"⟩], some sent)
    | FetchOutcome.httpError st ef =>
      (store1 ++ [⟨toString (t + 2), errorContentFor (httpThrownMessage st ef), "assistant"⟩], some sent)
    | FetchOutcome.networkError m =>
      (store1 ++ [⟨toString (t + 2), errorContentFor m, "assistant"⟩], some sent)

/-- The seeded welcome turn of the chat page (turn index 0), as it appears in
`body.messages` of a later request. -/
def welcomeMessage : ChatMessage :=
  ⟨"assistant", "Hello! I am your Financial Assistant. I can help you with financial questions, investment advice, budgeting tips, and more. What would you like to know?"⟩

/-- Conversation logs the chat page can actually send to the API: the store
starts as the seeded welcome turn, and every completed `handleSendMessage`
call appends one user turn and one assistant turn. -/
inductive ReachableLog : List ChatMessage → Prop where
  | seed : ReachableLog [welcomeMessage]
  | send (s : List ChatMessage) (u a : String) :
      ReachableLog s → ReachableLog (s ++ [⟨"user", u⟩, ⟨"assistant", a⟩])

theorem enumFrom_tail_project (rest : List ChatMessage) :
    ∀ n, 0 < n →
      ((List.enumFrom n rest).filter (fun p => decide (0 < p.fst))).map
          (fun p => toGeminiTurn p.snd) = rest.map toGeminiTurn := by
  induction rest with
  | nil => intro n _; rfl
  | cons r rs ih =>
    intro n hn
    have hd : decide (0 < n) = true := decide_eq_true hn
    simp only [List.enumFrom, List.filter_cons, hd, if_true, List.map_cons]
    rw [ih (n + 1) (by omega)]

theorem projectHistory_eq_drop_map (messages : List ChatMessage) :
    projectHistory messages = (messages.drop 1).map toGeminiTurn := by
  cases messages with
  | nil => rfl
  | cons m rest =>
    show ((List.enumFrom 0 (m :: rest)).filter (fun p => decide (0 < p.fst))).map
        (fun p => toGeminiTurn p.snd) = rest.map toGeminiTurn
    simp only [List.enumFrom, List.filter_cons, decide_eq_false (by omega : ¬ 0 < 0)]
    exact enumFrom_tail_project rest 1 (by omega)

theorem reachable_log_ne_nil {s : List ChatMessage} (h : ReachableLog s) : s ≠ [] := by
  cases h with
  | seed => exact List.cons_ne_nil _ _
  | send s' u a _ =>
    cases s' with
    | nil => exact List.cons_ne_nil _ _
    | cons x xs => exact List.cons_ne_nil _ _

theorem reachable_projected_head {s : List ChatMessage} (h : ReachableLog s) :
    ∀ t ts, projectHistory s = t :: ts → t.role = "user" := by
  induction h with
  | seed =>
    intro t ts ht
    rw [projectHistory_eq_drop_map] at ht
    simp at ht
  | send s' u a hs ih =>
    intro t ts ht
    rw [projectHistory_eq_drop_map] at ht
    obtain ⟨x, xs, rfl⟩ : ∃ x xs, s' = x :: xs := by
      cases s' with
      | nil => exact absurd rfl (reachable_log_ne_nil hs)
      | cons x xs => exact ⟨x, xs, rfl⟩
    simp only [List.cons_append, List.drop_succ_cons, List.drop_zero, List.map_append] at ht
    cases hxs : xs with
    | nil =>
      subst hxs
      simp only [List.nil_append, List.map_cons, List.map_nil] at ht
      have : t = toGeminiTurn ⟨"user", u⟩ := by
        injection ht with h1 _
        exact h1.symm
      rw [this]
      rfl
    | cons y ys =>
      subst hxs
      simp only [List.map_cons, List.cons_append] at ht
      have h1 : t = toGeminiTurn y := by
        injection ht with h1 _
        exact h1.symm
      have := ih (toGeminiTurn y) ((ys.map toGeminiTurn)) ?_
      · rw [h1]; exact this
      · rw [projectHistory_eq_drop_map]
        simp

/-- A copy of a raw file with its base64 encoding blanked out; used to state
that the capture pipeline never consults the base64 encoding. -/
def scrubBase64Field (f : FileInput) : FileInput :=
  ⟨f.name, f.size, f.type, f.textContent, ""⟩

theorem captureFile_scrub (t i : Nat) (f : FileInput) :
    captureFile t i (scrubBase64Field f) = captureFile t i f := rfl

theorem capture_partition_from (t : Nat) :
    ∀ (files : List FileInput) (n : Nat),
      failedReadCount files +
        (((List.enumFrom n files).map (fun p => captureFile t p.fst p.snd)).filterMap
          (fun d => d)).length = files.length := by
  intro files
  induction files with
  | nil => intro n; rfl
  | cons f fs ih =>
    intro n
    have hrec := ih (n + 1)
    simp only [failedReadCount] at hrec
    cases hc : f.textContent with
    | some c =>
      have hcap : captureFile t n f =
          some ⟨toString t ++ "." ++ toString n, f.name, f.size, f.type, c⟩ := by
        simp [captureFile, readFileContent, hc]
      simp only [List.enumFrom, List.map_cons, List.filterMap_cons, hcap,
        failedReadCount, List.filter_cons, hc, Bool.false_eq_true, if_false,
        List.length_cons]
      omega
    | none =>
      have hcap : captureFile t n f = none := by
        simp [captureFile, readFileContent, hc]
      simp only [List.enumFrom, List.map_cons, List.filterMap_cons, hcap,
        failedReadCount, List.filter_cons, hc, if_true, List.length_cons]
      omega

theorem capture_success_mem_from (t : Nat) :
    ∀ (files : List FileInput) (n : Nat) (f : FileInput) (c : String),
      f ∈ files → f.textContent = some c →
      ∃ d, d ∈ ((List.enumFrom n files).map (fun p => captureFile t p.fst p.snd)).filterMap
          (fun d => d) ∧ d.name = f.name ∧ d.content = c := by
  intro files
  induction files with
  | nil => intro n f c hmem; exact absurd hmem (List.not_mem_nil f)
  | cons g gs ih =>
    intro n f c hmem hc
    rcases List.mem_cons.mp hmem with heq | htail
    · subst heq
      refine ⟨⟨toString t ++ "." ++ toString n, f.name, f.size, f.type, c⟩, ?_, rfl, rfl⟩
      have hcap : captureFile t n f =
          some ⟨toString t ++ "." ++ toString n, f.name, f.size, f.type, c⟩ := by
        simp [captureFile, readFileContent, hc]
      simp [List.enumFrom, List.filterMap_cons, hcap]
    · obtain ⟨d, hd, hdn, hdc⟩ := ih (n + 1) f c htail hc
      refine ⟨d, ?_, hdn, hdc⟩
      cases hcap : captureFile t n g with
      | some doc =>
        simp only [List.enumFrom, List.map_cons, List.filterMap_cons, hcap]
        exact List.mem_cons_of_mem doc hd
      | none =>
        simp only [List.enumFrom, List.map_cons, List.filterMap_cons, hcap]
        exact hd

theorem capture_mem_source_from (t : Nat) :
    ∀ (files : List FileInput) (n : Nat) (d : UploadedDocument),
      d ∈ ((List.enumFrom n files).map (fun p => captureFile t p.fst p.snd)).filterMap
          (fun d => d) →
      ∃ f, f ∈ files ∧ f.textContent = some d.content ∧ d.name = f.name ∧ d.type = f.type := by
  intro files
  induction files with
  | nil => intro n d hd; simp [List.enumFrom] at hd
  | cons g gs ih =>
    intro n d hd
    cases hc : g.textContent with
    | some c =>
      have hcap : captureFile t n g =
          some ⟨toString t ++ "." ++ toString n, g.name, g.size, g.type, c⟩ := by
        simp [captureFile, readFileContent, hc]
      simp only [List.enumFrom, List.map_cons, List.filterMap_cons, hcap, List.mem_cons] at hd
      rcases hd with heq | htail
      · subst heq
        exact ⟨g, List.mem_cons_self g gs, hc, rfl, rfl⟩
      · obtain ⟨f, hf, hfc, hfn, hft⟩ := ih (n + 1) d htail
        exact ⟨f, List.mem_cons_of_mem g hf, hfc, hfn, hft⟩
    | none =>
      have hcap : captureFile t n g = none := by
        simp [captureFile, readFileContent, hc]
      simp only [List.enumFrom, List.map_cons, List.filterMap_cons, hcap] at hd
      obtain ⟨f, hf, hfc, hfn, hft⟩ := ih (n + 1) d hd
      exact ⟨f, List.mem_cons_of_mem g hf, hfc, hfn, hft⟩

theorem capture_scrub_from (t : Nat) :
    ∀ (files : List FileInput) (n : Nat),
      (List.enumFrom n (files.map scrubBase64Field)).map (fun p => captureFile t p.fst p.snd) =
        (List.enumFrom n files).map (fun p => captureFile t p.fst p.snd) := by
  intro files
  induction files with
  | nil => intro n; rfl
  | cons f fs ih =>
    intro n
    simp only [List.map_cons, List.enumFrom]
    rw [captureFile_scrub t n f, ih (n + 1)]

/-- A model call that fails with a rate-limit error on attempts 0 and 1 and
would succeed on attempt 2: the failing input of claim C1. -/
def rateLimitThenSuccess : Nat → Outcome := fun k =>
  if k < 2 then Outcome.err ⟨"429 Resource has been exhausted"⟩
  else Outcome.ok "Here is your answer"

/-- Claim C1: with maxRetries = 2 and a model call that fails with rate-limit
errors on the first two attempts and would succeed on the third, the claim
says dispatch performs that third attempt and returns the successful text.
The code does not: the loop `attempt < maxRetries` performs only 2 attempts
in total, then throws the last rate-limit error, even though the call that
would have succeeded is right there at index 2. -/
theorem two_attempt_limit_on_rate_limit :
    retryWithBackoff rateLimitThenSuccess 2 2000 =
      ⟨Except.error (some ⟨"429 Resource has been exhausted"⟩), 2, [2000, 4000]⟩ ∧
    rateLimitThenSuccess 2 = Outcome.ok "Here is your answer" :=
  ⟨rfl, rfl⟩

/-- Claim C4: a failed attempt is retried if and only if the error message
indicates a rate limit (contains "429"). First conjunct: a non-rate-limit
error on the first attempt is propagated at once, after exactly one attempt
and with no backoff sleeps. Second conjunct: whenever a further attempt
`k + 1` was started, attempt `k` failed with a rate-limit error. Third
conjunct: rate-limit failures are retried as long as the attempt budget
allows. -/
theorem retry_only_on_rate_limit :
    (∀ fn mr bd (e : JsError), 0 < mr → fn 0 = Outcome.err e →
      strIncludes e.message "429" = false →
      retryWithBackoff fn mr bd = ⟨Except.error (some e), 1, []⟩) ∧
    (∀ fn mr bd k, k + 2 ≤ (retryWithBackoff fn mr bd).attempts →
      ∃ e, fn k = Outcome.err e ∧ strIncludes e.message "429" = true) ∧
    (∀ fn mr bd k, k + 1 < mr →
      (∀ j, j ≤ k → ∃ e, fn j = Outcome.err e ∧ strIncludes e.message "429" = true) →
      k + 2 ≤ (retryWithBackoff fn mr bd).attempts) := by
  refine ⟨?_, ?_, ?_⟩
  · intro fn mr bd e hmr hfa hrl
    match mr, hmr with
    | m + 1, _ =>
      show retryLoop fn bd (m + 1) 0 none [] = _
      simp only [retryLoop, hfa, hrl, Bool.false_eq_true, if_false]
  · intro fn mr bd k h
    exact retryLoop_retry_implies_rl fn bd mr 0 none [] k (Nat.zero_le k) h
  · intro fn mr bd k hk hall
    exact retryLoop_rl_implies_retry fn bd mr 0 none [] k (Nat.zero_le k) (by omega)
      (fun j _ hjk => hall j hjk)

/-- A model call that always fails with a non-rate-limit (credential) error. -/
def alwaysUnauthorized : Nat → Outcome := fun _ => Outcome.err ⟨"401 unauthorized"⟩

/-- A model call that always fails with a rate-limit error. -/
def alwaysRateLimited : Nat → Outcome := fun _ => Outcome.err ⟨"429 Too Many Requests"⟩

/-- Witness for claim C4 at concrete inputs: the credential failure is
surfaced after one attempt with no sleeps; the rate-limit failure at attempt
0 is retried, and the retried attempt really was a rate-limit failure. -/
theorem retry_only_on_rate_limit_witness :
    retryWithBackoff alwaysUnauthorized 2 1000 =
      ⟨Except.error (some ⟨"401 unauthorized"⟩), 1, []⟩ ∧
    (∃ e, alwaysRateLimited 0 = Outcome.err e ∧ strIncludes e.message "429" = true) ∧
    0 + 2 ≤ (retryWithBackoff alwaysRateLimited 2 1000).attempts := by
  refine ⟨?_, ?_, ?_⟩
  · exact retry_only_on_rate_limit.1 alwaysUnauthorized 2 1000 ⟨"401 unauthorized"⟩
      (by omega) rfl (by rfl)
  · exact retry_only_on_rate_limit.2.1 alwaysRateLimited 2 1000 0
      (retry_only_on_rate_limit.2.2 alwaysRateLimited 2 1000 0 (by omega)
        (fun j _ => ⟨⟨"429 Too Many Requests"⟩, rfl, by rfl⟩))
  · exact retry_only_on_rate_limit.2.2 alwaysRateLimited 2 1000 0 (by omega)
      (fun j _ => ⟨⟨"429 Too Many Requests"⟩, rfl, by rfl⟩)

/-- Claim C5: the number of attempts never exceeds the configured
`maxRetries` (so the number of retries, attempts minus one, never exceeds it
either), at most `maxRetries` backoff sleeps happen, and the sleep recorded
at position `k` — the one inserted right after failed attempt `k` — is
exactly `baseDelay * 2 ^ k`. -/
theorem backoff_delay_formula :
    ∀ fn mr bd,
      (retryWithBackoff fn mr bd).attempts ≤ mr ∧
      (retryWithBackoff fn mr bd).delays.length ≤ mr ∧
      (∀ k, k < (retryWithBackoff fn mr bd).delays.length →
        (retryWithBackoff fn mr bd).delays.getD k 0 = bd * 2 ^ k) := by
  intro fn mr bd
  obtain ⟨n, hn, hds⟩ := retryLoop_delays_shape fn bd mr 0 none []
  rw [List.nil_append] at hds
  have hshape : (retryWithBackoff fn mr bd).delays = geomDelays bd 0 n := hds
  refine ⟨?_, ?_, ?_⟩
  · have h := retryLoop_attempts_le fn bd mr 0 none []
    have h2 : (retryWithBackoff fn mr bd).attempts = (retryLoop fn bd mr 0 none []).attempts := rfl
    omega
  · rw [hshape, geomDelays_length]
    exact hn
  · intro k hk
    rw [hshape] at hk
    rw [hshape, geomDelays_getD bd n 0 k (by rw [geomDelays_length] at hk; exact hk)]
    rw [Nat.zero_add]

/-- Witness for claim C5 at a concrete input: two rate-limit failures with
baseDelay 1000 perform at most the configured 2 attempts and the first
recorded sleep is `1000 * 2 ^ 0`. -/
theorem backoff_delay_formula_witness :
    (retryWithBackoff alwaysRateLimited 2 1000).attempts ≤ 2 ∧
    0 < (retryWithBackoff alwaysRateLimited 2 1000).delays.length ∧
    (retryWithBackoff alwaysRateLimited 2 1000).delays.getD 0 0 = 1000 * 2 ^ 0 := by
  refine ⟨(backoff_delay_formula alwaysRateLimited 2 1000).1, by decide, ?_⟩
  exact (backoff_delay_formula alwaysRateLimited 2 1000).2.2 0 (by decide)

/-- Claim C6: when every allowed attempt fails with a rate-limit error, the
dispatcher returns the last error observed (`throw lastError`), and the POST
handler turns it into the structured 429 rate-limit JSON response rather
than letting it escape or swallowing it. -/
theorem exhausted_retries_return_last_error :
    (∀ fn mr bd (e : Nat → JsError), 0 < mr →
      (∀ k, k < mr → fn k = Outcome.err (e k)) →
      (∀ k, k < mr → strIncludes (e k).message "429" = true) →
      (retryWithBackoff fn mr bd).result = Except.error (some (e (mr - 1)))) ∧
    (∀ fn (e : Nat → JsError),
      (∀ k, k < 2 → fn k = Outcome.err (e k)) →
      (∀ k, k < 2 → strIncludes (e k).message "429" = true) →
      postDispatch fn = ⟨429, ApiBody.error rateLimitErrorText rateLimitDetailsText⟩) := by
  constructor
  · intro fn mr bd e hmr hall hrl
    have h := retryLoop_all_rl_result fn bd e mr 0 none [] hmr
      (fun k _ hk => hall k (by omega)) (fun k _ hk => hrl k (by omega))
    have h2 : (retryWithBackoff fn mr bd).result = (retryLoop fn bd mr 0 none []).result := rfl
    rw [h2, h, Nat.zero_add]
  · intro fn e hall hrl
    have hres : (retryWithBackoff fn 2 2000).result = Except.error (some (e 1)) := by
      have h := retryLoop_all_rl_result fn 2000 e 2 0 none [] (by omega)
        (fun k _ hk => hall k (by omega)) (fun k _ hk => hrl k (by omega))
      have h2 : (retryWithBackoff fn 2 2000).result = (retryLoop fn 2000 2 0 none []).result := rfl
      rw [h2, h]
    have h429 := hrl 1 (by omega)
    simp only [postDispatch, hres, postCatch, h429, Bool.true_or, if_true]

/-- A model call that always fails with a combined rate-limit and quota
error message. -/
def alwaysQuota429 : Nat → Outcome := fun _ => Outcome.err ⟨"429 quota exceeded"⟩

/-- Witness for claim C6 at a concrete input: three-would-be consecutive
rate-limit failures with maxRetries 2 end in the last observed error and the
429 JSON response. -/
theorem exhausted_retries_return_last_error_witness :
    (retryWithBackoff alwaysQuota429 2 2000).result =
      Except.error (some ⟨"429 quota exceeded"⟩) ∧
    postDispatch alwaysQuota429 =
      ⟨429, ApiBody.error rateLimitErrorText rateLimitDetailsText⟩ := by
  constructor
  · exact exhausted_retries_return_last_error.1 alwaysQuota429 2 2000
      (fun _ => ⟨"429 quota exceeded"⟩) (by omega) (fun k _ => rfl) (fun k _ => by rfl)
  · exact exhausted_retries_return_last_error.2 alwaysQuota429
      (fun _ => ⟨"429 quota exceeded"⟩) (fun k _ => rfl) (fun k _ => by rfl)

/-- Claim C7: the outgoing history is every stored turn except the first,
in order, with role "user" for user turns and "model" for everything else;
and on every log the chat page can actually send (seeded welcome turn plus
appended user/assistant pairs), a non-empty projected history starts with a
"user" turn, never a "model" one. -/
theorem projected_history_roles :
    (∀ messages : List ChatMessage,
      projectHistory messages = (messages.drop 1).map toGeminiTurn) ∧
    (∀ messages : List ChatMessage, ReachableLog messages →
      ∀ t ts, projectHistory messages = t :: ts → t.role = "user") :=
  ⟨projectHistory_eq_drop_map, fun _ h => reachable_projected_head h⟩

/-- A concrete reachable log: one completed send after the welcome turn. -/
def sampleLog : List ChatMessage := [welcomeMessage] ++ [⟨"user", "hi"⟩, ⟨"assistant", "ok"⟩]

/-- Witness for claim C7 on a concrete reachable log: one completed send
after the welcome turn projects to a history starting with the "user" turn. -/
theorem projected_history_roles_witness :
    projectHistory sampleLog = (⟨"user", "hi"⟩ : GeminiTurn) :: [⟨"model", "ok"⟩] ∧
    (⟨"user", "hi"⟩ : GeminiTurn).role = "user" := by
  constructor
  · rfl
  · exact projected_history_roles.2 sampleLog
      (ReachableLog.send [welcomeMessage] "hi" "ok" ReachableLog.seed)
      ⟨"user", "hi"⟩ [⟨"model", "ok"⟩] rfl

/-- Claim C8: for a non-empty batch, failed reads plus captured documents
equal the batch size, and every file whose read succeeds yields a captured
document regardless of what happens to the other files of the batch. -/
theorem batch_capture_partition :
    ∀ (t : Nat) (files : List FileInput), files ≠ [] →
      failedReadCount files + (handleFilesValidDocs t files).length = files.length ∧
      (∀ f, f ∈ files → ∀ c, f.textContent = some c →
        ∃ d, d ∈ handleFilesValidDocs t files ∧ d.name = f.name ∧ d.content = c) := by
  intro t files _
  constructor
  · exact capture_partition_from t files 0
  · intro f hf c hc
    exact capture_success_mem_from t files 0 f c hf hc

/-- A file whose read succeeds. -/
def txtSample : FileInput := ⟨"a.txt", 3, "text/plain", some "abc", "YWJj"⟩

/-- A file whose read fails. -/
def badFile : FileInput := ⟨"broken.csv", 7, "text/csv", none, "Zm9v"⟩

/-- Witness for claim C8 on a concrete two-file batch with one failing read:
the counts partition the batch and the healthy file is still captured. -/
theorem batch_capture_partition_witness :
    failedReadCount [txtSample, badFile] +
      (handleFilesValidDocs 0 [txtSample, badFile]).length = 2 ∧
    (∃ d, d ∈ handleFilesValidDocs 0 [txtSample, badFile] ∧
      d.name = txtSample.name ∧ d.content = "abc") := by
  constructor
  · exact (batch_capture_partition 0 [txtSample, badFile] (List.cons_ne_nil _ _)).1
  · exact (batch_capture_partition 0 [txtSample, badFile] (List.cons_ne_nil _ _)).2
      txtSample (List.mem_cons_self _ _) "abc" rfl

/-- Does a string end with the given suffix. -/
def strEndsWith (s t : String) : Bool := t.toList.isSuffixOf s.toList

/-- Modelled from the spec: the decoding policy claimed for DocumentCapture —
`encoding = Text` iff the reported media type contains "text" or the name
ends in `.txt`, `.csv` or `.json`; otherwise `BinaryBase64` (whole-file
base64). The component itself has no such branch: it always calls
`reader.readAsText`. -/
def specTextEncodingRule (f : FileInput) : Bool :=
  strIncludes f.type "text" || strEndsWith f.name ".txt" ||
    strEndsWith f.name ".csv" || strEndsWith f.name ".json"

/-- A binary (PDF) file: its text decoding differs from its base64 encoding. -/
def pdfSample : FileInput := ⟨"report.pdf", 8, "application/pdf", some "%PDF-1.4", "JVBERi0xLjQ="⟩

/-- Counterexample to claim C2: `report.pdf` matches neither the media-type
rule nor the extension rule, so the claim requires `BinaryBase64`, yet the
component reads it as text and captures the text decoding, not the base64
payload. -/
theorem binary_file_read_as_text_counterexample :
    specTextEncodingRule pdfSample = false ∧
    readFileContent pdfSample = Except.ok "%PDF-1.4" ∧
    handleFilesValidDocs 0 [pdfSample] =
      [⟨"0.0", "report.pdf", 8, "application/pdf", "%PDF-1.4"⟩] ∧
    "%PDF-1.4" ≠ pdfSample.base64Content := by
  refine ⟨rfl, rfl, rfl, by decide⟩

/-- Claim C2 (amended): every captured document's payload is the
`readAsText` decoding of its file, whatever the media type or name; the
base64 encoding of the file is never consulted, so no document is ever
`BinaryBase64`-encoded. -/
theorem captured_payload_always_text_decoding :
    (∀ (t : Nat) (files : List FileInput) (d : UploadedDocument),
      d ∈ handleFilesValidDocs t files →
      ∃ f, f ∈ files ∧ f.textContent = some d.content ∧ d.name = f.name ∧ d.type = f.type) ∧
    (∀ (t : Nat) (files : List FileInput),
      handleFilesValidDocs t (files.map scrubBase64Field) = handleFilesValidDocs t files) := by
  constructor
  · intro t files d hd
    exact capture_mem_source_from t files 0 d hd
  · intro t files
    show ((List.enumFrom 0 (files.map scrubBase64Field)).map
        (fun p => captureFile t p.fst p.snd)).filterMap (fun d => d) = _
    rw [capture_scrub_from t files 0]
    rfl

/-- Witness for the amended claim C2 at a concrete capture: the captured
document of `a.txt` has the text decoding of the file as payload. -/
theorem captured_payload_always_text_decoding_witness :
    (⟨"0.0", "a.txt", 3, "text/plain", "abc"⟩ : UploadedDocument) ∈
      handleFilesValidDocs 0 [txtSample] ∧
    (∃ f, f ∈ [txtSample] ∧
      f.textContent = some (⟨"0.0", "a.txt", 3, "text/plain", "abc"⟩ : UploadedDocument).content ∧
      (⟨"0.0", "a.txt", 3, "text/plain", "abc"⟩ : UploadedDocument).name = f.name ∧
      (⟨"0.0", "a.txt", 3, "text/plain", "abc"⟩ : UploadedDocument).type = f.type) := by
  constructor
  · decide
  · exact captured_payload_always_text_decoding.1 0 [txtSample]
      ⟨"0.0", "a.txt", 3, "text/plain", "abc"⟩ (by decide)

/-- The document of the claim C3 scenario. -/
def statementDoc : UploadedDocument := ⟨"doc-1", "statement.txt", 13, "text/plain", "Balance: $500"⟩

/-- The question of the claim C3 scenario. -/
def balanceQuestion : String := "What is my balance?"

set_option maxRecDepth 8000 in
/-- Claim C3: with no documents the assembled message is the user text
unchanged; with documents it is the user text followed by the document
block; and in the statement.txt scenario the assembled message contains
"FILE: statement.txt", the verbatim payload "Balance: $500", and the
question text, in that relative order. -/
theorem message_assembly_structure :
    (∀ msg : String, enhanceUserMessage msg [] = msg) ∧
    (∀ (msg : String) (docs : List UploadedDocument), docs ≠ [] →
      enhanceUserMessage msg docs = msg ++ attachedDocumentsBlock msg docs) ∧
    (∃ s1 s2 s3 s4 : String,
      enhanceUserMessage balanceQuestion [statementDoc] =
        s1 ++ ("FILE: statement.txt" ++ (s2 ++ ("Balance: $500" ++
          (s3 ++ (balanceQuestion ++ s4)))))) := by
  refine ⟨?_, ?_, ?_⟩
  · intro msg; rfl
  · intro msg docs hne
    have hp : 0 < docs.length := List.length_pos.mpr hne
    simp only [enhanceUserMessage, hp, if_true]
  · exact ⟨balanceQuestion ++ "\n\n📎 ATTACHED DOCUMENTS:\n\n" ++ delimiterText ++ "\n📄 ",
      "\n" ++ delimiterText ++ "\n\n",
      "\n\n" ++ delimiterText ++ "\n\nPlease analyze the above document(s) and answer this question:\n",
      "", by decide⟩

/-- Witness for claim C3 at concrete inputs: empty and one-document sends. -/
theorem message_assembly_structure_witness :
    enhanceUserMessage "hi" [] = "hi" ∧
    enhanceUserMessage "hi" [statementDoc] = "hi" ++ attachedDocumentsBlock "hi" [statementDoc] :=
  ⟨message_assembly_structure.1 "hi",
   message_assembly_structure.2.1 "hi" [statementDoc] (List.cons_ne_nil _ _)⟩

/-- Claim C10: a blank (empty or all-whitespace) user text makes
`handleSendMessage` return at once: the store is untouched and no request
is assembled or dispatched, whatever the documents and the would-be fetch
outcome. -/
theorem blank_message_no_send :
    ∀ (store : List Message) (content : String) (documents : List UploadedDocument)
      (t : Nat) (outcome : FetchOutcome), strTrim content = "" →
      handleSendMessage store content documents t outcome = (store, none) := by
  intro store content documents t outcome h
  simp [handleSendMessage, h]

/-- Witness for claim C10 at a concrete blank input. -/
theorem blank_message_no_send_witness :
    handleSendMessage [] "  " [] 0 (FetchOutcome.networkError "boom") = ([], none) :=
  blank_message_no_send [] "  " [] 0 (FetchOutcome.networkError "boom") rfl

/-- Counterexample to claim C9 as universally stated: a call of
`handleSendMessage` with whitespace-only text appends no turn at all — the
store stays empty instead of growing by one user and one assistant turn —
even though a successful reply was available. -/
theorem blank_send_appends_nothing_counterexample :
    handleSendMessage [] "   " [] 0 (FetchOutcome.ok (some "hello")) = ([], none) := rfl

/-- Claim C9 (amended): every `handleSendMessage` call with non-blank text
appends exactly one user turn and then exactly one assistant turn to the
store, touching nothing else; the assistant turn carries the reply on a
successful fetch with a non-empty reply, and the classified synthetic error
text when the fetch rejects. -/
theorem send_appends_user_and_assistant :
    ∀ (store : List Message) (content : String) (documents : List UploadedDocument)
      (t : Nat) (outcome : FetchOutcome), strTrim content ≠ "" →
      ∃ u a : Message,
        (handleSendMessage store content documents t outcome).fst = store ++ [u, a] ∧
        u.role = "user" ∧ u.content = displayedUserContent content documents ∧
        a.role = "assistant" ∧
        (∀ r, outcome = FetchOutcome.ok (some r) → r ≠ "" → a.content = r) ∧
        (∀ m, outcome = FetchOutcome.networkError m → a.content = errorContentFor m) := by
  intro store content documents t outcome h
  cases outcome with
  | ok reply =>
    cases reply with
    | some r =>
      by_cases hr : r = ""
      · subst hr
        refine ⟨⟨toString t, displayedUserContent content documents, "user"⟩,
          ⟨toString (t + 2), errorContentFor "No reply received from API", "assistant"⟩,
          ?_, rfl, rfl, rfl, ?_, ?_⟩
        · simp [handleSendMessage, h]
        · intro r' hr' hner
          injection hr' with h1
          injection h1 with h2
          exact absurd h2.symm hner
        · intro m hm
          exact FetchOutcome.noConfusion hm
      · refine ⟨⟨toString t, displayedUserContent content documents, "user"⟩,
          ⟨toString (t + 1), r, "assistant"⟩, ?_, rfl, rfl, rfl, ?_, ?_⟩
        · simp [handleSendMessage, h, hr]
        · intro r' hr' _
          injection hr' with h1
          injection h1 with h2
        · intro m hm
          exact FetchOutcome.noConfusion hm
    | none =>
      refine ⟨⟨toString t, displayedUserContent content documents, "user"⟩,
        ⟨toString (t + 2), errorContentFor "No reply received from API", "assistant"⟩,
        ?_, rfl, rfl, rfl, ?_, ?_⟩
      · simp [handleSendMessage, h]
      · intro r' hr' _
        injection hr' with h1
        exact Option.noConfusion h1
      · intro m hm
        exact FetchOutcome.noConfusion hm
  | httpError st ef =>
    refine ⟨⟨toString t, displayedUserContent content documents, "user"⟩,
      ⟨toString (t + 2), errorContentFor (httpThrownMessage st ef), "assistant"⟩,
      ?_, rfl, rfl, rfl, ?_, ?_⟩
    · simp [handleSendMessage, h]
    · intro r' hr' _
      exact FetchOutcome.noConfusion hr'
    · intro m hm
      exact FetchOutcome.noConfusion hm
  | networkError m =>
    refine ⟨⟨toString t, displayedUserContent content documents, "user"⟩,
      ⟨toString (t + 2), errorContentFor m, "assistant"⟩, ?_, rfl, rfl, rfl, ?_, ?_⟩
    · simp [handleSendMessage, h]
    · intro r' hr' _
      exact FetchOutcome.noConfusion hr'
    · intro m' hm'
      injection hm' with h1
      rw [h1]

/-- Witness for the amended claim C9 at a concrete successful send. -/
theorem send_appends_user_and_assistant_witness :
    strTrim "hi" ≠ "" ∧
    (∃ u a : Message,
      (handleSendMessage [] "hi" [] 0 (FetchOutcome.ok (some "hello"))).fst = [] ++ [u, a] ∧
      u.role = "user" ∧ u.content = displayedUserContent "hi" [] ∧
      a.role = "assistant" ∧
      (∀ r, FetchOutcome.ok (some "hello") = FetchOutcome.ok (some r) → r ≠ "" →
        a.content = r) ∧
      (∀ m, FetchOutcome.ok (some "hello") = FetchOutcome.networkError m →
        a.content = errorContentFor m)) :=
  ⟨by decide,
   send_appends_user_and_assistant [] "hi" [] 0 (FetchOutcome.ok (some "hello")) (by decide)⟩
